import Mathlib

/-!
Verification development for the invoice text-extraction engine in
`tracker/utils/pdf_text_extractor.py`.

The Python source is embedded shallowly: every regular expression of the
source is hand-compiled into an executable matcher over `List Char`
(case-insensitive literals, whitespace runs, character-class repetition,
alternation with the priority order of the Python `re` engine, leftmost
search), and every function of the source becomes a total Lean function.

Numeric idealization: Python `Decimal` values are modelled by the exact
decimal type `Dec` (numeric value; the Decimal scale is not tracked).
The `float(...)` conversions in the line-item code are modelled as exact
decimal values, and the round trip `to_decimal(str(x))` applied to a
float is modelled as the identity on the value (`roundTripDecimal`).
Real IEEE-754 binary64 rounding and `repr` formatting are NOT modelled;
consequences of that rounding (exactness of line-item values) are
outside this development.
-/

set_option maxRecDepth 8000

namespace InvoiceSpec

abbrev Chars := List Char

/-- Python `str.strip` whitespace set (ASCII range): space, tab, newline,
carriage return, vertical tab, form feed. -/
def pyIsSpace (c : Char) : Bool :=
  c == ' ' || c == '\t' || c == '\n' || c == '\r' || c == '\x0b' || c == '\x0c'

/-- Python regex `\w` on ASCII input: letters, digits, underscore. -/
def isWordCh (c : Char) : Bool := c.isAlphanum || c == '_'

/-- Python `str.strip()` on a character list. -/
def pyStripL (l : Chars) : Chars :=
  ((l.dropWhile pyIsSpace).reverse.dropWhile pyIsSpace).reverse

def splitOnChAux (sep : Char) : Chars → Chars → List Chars
  | [], acc => [acc.reverse]
  | c :: r, acc =>
    if c == sep then acc.reverse :: splitOnChAux sep r []
    else splitOnChAux sep r (c :: acc)

/-- Python `str.split(sep)` for a single-character separator
(`"".split(sep) = ['']`). -/
def splitOnCh (sep : Char) (l : Chars) : List Chars := splitOnChAux sep l []

def lowC (c : Char) : Char := c.toLower

def toLowerL (l : Chars) : Chars := l.map lowC

def pyUpperL (l : Chars) : Chars := l.map Char.toUpper

/-- Case-insensitive literal: if `l` starts with the word `w` (modulo ASCII
case), return the remainder. -/
def ciDropLit : Chars → Chars → Option Chars
  | [], l => some l
  | _ :: _, [] => none
  | w :: wr, c :: cr => if lowC w == lowC c then ciDropLit wr cr else none

def plainStarts : Chars → Chars → Bool
  | [], _ => true
  | _ :: _, [] => false
  | a :: ar, b :: br => a == b && plainStarts ar br

/-- Python `needle in haystack` (exact substring, used on lowercased text). -/
def containsL : Chars → Chars → Bool
  | n, [] => plainStarts n []
  | n, l@(_ :: r) => plainStarts n l || containsL n r

def firstSome {α β : Type} (f : α → Option β) : List α → Option β
  | [] => none
  | a :: r =>
    match f a with
    | some b => some b
    | none => firstSome f r

def orO {α : Type} (a b : Option α) : Option α :=
  match a with
  | some x => some x
  | none => b

def mkS (l : Chars) : String := ⟨l⟩

/-! ### Matcher combinators

A matcher (`Mt`) consumes a prefix of the input and returns the list of
possible remainders, in the priority order used by the backtracking
Python `re` engine (greedy repetitions longest-first, alternation
left-to-right). -/

abbrev Mt := Chars → List Chars

/-- Case-insensitive literal matcher (Python literal text under `re.I`). -/
def mlit (w : String) : Mt := fun l =>
  match ciDropLit w.data l with
  | some r => [r]
  | none => []

def mseq (a b : Mt) : Mt := fun l => (a l).flatMap b

def mseq3 (a b c : Mt) : Mt := mseq a (mseq b c)

def mseq4 (a b c d : Mt) : Mt := mseq a (mseq b (mseq c d))

def maltL (ms : List Mt) : Mt := fun l => ms.flatMap (· l)

/-- `\s*` (greedy: longest consumption first). -/
def mws0 : Mt := fun l =>
  let n := (l.takeWhile pyIsSpace).length
  (List.range (n + 1)).map (fun k => l.drop (n - k))

/-- `\s+` (greedy, at least one). -/
def mws1 : Mt := fun l =>
  let n := (l.takeWhile pyIsSpace).length
  (List.range n).map (fun k => l.drop (n - k))

/-- Single character from a character class. -/
def mone (p : Char → Bool) : Mt := fun l =>
  match l with
  | c :: r => if p c then [r] else []
  | [] => []

/-- `X?` for a sub-matcher (greedy: with `X` first, then without). -/
def mopt (a : Mt) : Mt := fun l => a l ++ [l]

/-- Character-class `+` (greedy: longest run first). -/
def mrep1 (p : Char → Bool) : Mt := fun l =>
  let n := (l.takeWhile p).length
  (List.range n).map (fun k => l.drop (n - k))

def msome (m : Mt) (l : Chars) : Bool := !(m l).isEmpty

/-- Python `re.search` (existence): try every start position, leftmost first. -/
def msearch (m : Mt) : Chars → Bool
  | [] => msome m []
  | l@(_ :: r) => msome m l || msearch m r

def isColonEq (c : Char) : Bool := c == ':' || c == '='

/-- First (position, priority) match of `pre` whose remainder starts with a
nonempty greedy run of class `cls`; returns that run (the regex capture
group `(cls+)` at the end of the pattern). -/
def capClsHere (pre : Mt) (cls : Char → Bool) (l : Chars) : Option Chars :=
  firstSome
    (fun rem =>
      let run := rem.takeWhile cls
      if run.isEmpty then none else some run)
    (pre l)

def capSearch (pre : Mt) (cls : Char → Bool) : Chars → Option Chars
  | [] => none
  | l@(_ :: r) => orO (capClsHere pre cls l) (capSearch pre cls r)

/-- First match of `pre` with a nonempty remainder; returns the remainder
(the capture group `(.+)$` on a newline-free line). -/
def capRestHere (pre : Mt) (l : Chars) : Option Chars :=
  firstSome (fun rem => if rem.isEmpty then none else some rem) (pre l)

def capRestSearch (pre : Mt) : Chars → Option Chars
  | [] => none
  | l@(_ :: r) => orO (capRestHere pre l) (capRestSearch pre r)

/-! ### Word-boundary token search (`\b ... \b` patterns) -/

def boundaryBeforeB (prev : Option Char) : Bool :=
  match prev with
  | none => true
  | some p => !isWordCh p

/-- The `\b` after an alternative: if the alternative ends in a word
character the next character must not be one (or the string ends); if it
ends in a non-word character (e.g. a literal dot) the next character must
be a word character. -/
def boundAfterChars (tk : Chars) (rem : Chars) : Bool :=
  let lw := match tk.getLast? with
    | some x => isWordCh x
    | none => true
  match rem with
  | [] => lw
  | d :: _ => if lw then !isWordCh d else isWordCh d

def tokAtBnd (tk : Chars) (l : Chars) : Bool :=
  match ciDropLit tk l with
  | some rem => boundAfterChars tk rem
  | none => false

def hasTokAux (tk : Chars) : Option Char → Chars → Bool
  | _, [] => false
  | prev, l@(c :: r) => (boundaryBeforeB prev && tokAtBnd tk l) || hasTokAux tk (some c) r

/-- Python `re.search(r'\b(?:tok)\b', s, re.I)` for a literal alternative. -/
def hasTok (tk : String) (l : Chars) : Bool := hasTokAux tk.data none l

def kwHit (alts : List String) (l : Chars) : Bool := alts.any (fun a => hasTok a l)

/-- Python `re.match(r'^(?:kw1|kw2|...)\b', s, re.I)` (anchored at start). -/
def startsKwList (kws : List String) (l : Chars) : Bool :=
  kws.any (fun k =>
    match ciDropLit k.data l with
    | some rem => boundAfterChars k.data rem
    | none => false)

/-! ### Exact decimal numbers

Python `Decimal` values and the exact-value idealization of Python
floats are modelled as `Dec`: an integer mantissa over a power of ten.
Every `Dec` built by this development is normalized (while the exponent
is positive the mantissa is not divisible by ten), so two produced
values are equal as terms iff they are equal as numbers. -/

structure Dec where
  mant : ℤ
  exp : ℕ
deriving DecidableEq

def tenPow (e : ℕ) : ℤ := Int.ofNat (10 ^ e)

def normDecAux : ℤ → ℕ → Dec
  | m, 0 => ⟨m, 0⟩
  | m, e + 1 => if m % 10 == 0 then normDecAux (m / 10) e else ⟨m, e + 1⟩

/-- Normalizing constructor for the value `m / 10 ^ e`. -/
def mkDec (m : ℤ) (e : ℕ) : Dec := normDecAux m e

/-- The rational value of a `Dec` (used in statements only). -/
def Dec.toQ (d : Dec) : ℚ := (d.mant : ℚ) / (10 : ℚ) ^ d.exp

def IsNormal (d : Dec) : Prop := d.exp = 0 ∨ ¬ ((10 : ℤ) ∣ d.mant)

/-- Value-level strict order (cross multiplication by powers of ten). -/
def valBlt (a b : Dec) : Bool := a.mant * tenPow b.exp < b.mant * tenPow a.exp

def valBle (a b : Dec) : Bool := a.mant * tenPow b.exp ≤ b.mant * tenPow a.exp

def decZero : Dec := ⟨0, 0⟩

/-- `x == int(x)`: the value is an integer. -/
def isIntegralDec (d : Dec) : Bool := d.mant % tenPow d.exp == 0

/-- `int(x)` for an integral value (exact division). -/
def decToInt (d : Dec) : ℤ := d.mant / tenPow d.exp

def decFloor (d : Dec) : ℤ := Int.fdiv d.mant (tenPow d.exp)

/-- Python `round` (half to even) on the exact value. -/
def pyRoundD (d : Dec) : ℤ :=
  let f := decFloor d
  let rem := d.mant - f * tenPow d.exp
  if 2 * rem < tenPow d.exp then f
  else if tenPow d.exp < 2 * rem then f + 1
  else if f % 2 = 0 then f else f + 1

/-- `abs(x - round(x)) < 0.1`, cleared of denominators. -/
def withinTenthOfRound (d : Dec) : Bool :=
  (Int.natAbs (d.mant - pyRoundD d * tenPow d.exp) : ℤ) * 10 < tenPow d.exp

/-! ### `to_decimal` (source lines 338-347) -/

def natOfDigits (l : Chars) : ℕ :=
  l.foldl (fun a c => a * 10 + (c.toNat - 48)) 0

/-- `Decimal(s)` (or `float(s)`) for an unsigned string over digits, dots,
dashes: digits with at most one dot and at least one digit, whole string
consumed; the value is returned normalized. -/
def pyUnsignedDec (l : Chars) : Option Dec :=
  let ip := l.takeWhile Char.isDigit
  let r := l.dropWhile Char.isDigit
  match r with
  | [] => if ip.isEmpty then none else some (mkDec (Int.ofNat (natOfDigits ip)) 0)
  | '.' :: fr =>
    if fr.all Char.isDigit && !(ip.isEmpty && fr.isEmpty) then
      some (mkDec (Int.ofNat (natOfDigits ip * 10 ^ fr.length + natOfDigits fr)) fr.length)
    else none
  | _ => none

/-- `Decimal(s)` with an optional leading minus sign; `none` models the
caught `InvalidOperation`. -/
def pyDecimalOfChars (l : Chars) : Option Dec :=
  match l with
  | '-' :: r => (pyUnsignedDec r).map (fun d => ⟨-d.mant, d.exp⟩)
  | _ => pyUnsignedDec l

/-- `re.sub(r'[^\d\.\,\-]', '', s).strip()` of `to_decimal`. -/
def cleanAmount (l : Chars) : Chars :=
  pyStripL (l.filter (fun c => c.isDigit || c == '.' || c == ',' || c == '-'))

/-- `to_decimal` on a present string (source lines 338-347): clean, reject
the three single-character punctuation strings, drop thousands commas,
parse as exact decimal; every failure path gives `none`. -/
def toDecimalCh (l : Chars) : Option Dec :=
  if (cleanAmount l).isEmpty then none
  else if cleanAmount l == ['.'] || cleanAmount l == [','] || cleanAmount l == ['-'] then none
  else pyDecimalOfChars ((cleanAmount l).filter (fun c => c != ','))

def toDecimal (s : Option Chars) : Option Dec :=
  match s with
  | none => none
  | some l => toDecimalCh l

/-! ### `find_amount` (source lines 350-387) -/

def isAmountCh (c : Char) : Bool := c.isDigit || c == ',' || c == '.'

def mCurrency : Mt := maltL [mlit "TSH", mlit "TZS", mlit "UGX"]

/-- Strategy prefix `{pat}\s*:\s*(?:TSH|TZS|UGX)?\s*` before the amount group. -/
def amtColonPre (pat : Mt) : Mt :=
  mseq pat (mseq3 mws0 (mlit ":") (mseq3 mws0 (mopt mCurrency) mws0))

/-- Strategy prefix `{pat}\s*=\s*(?:TSH|TZS|UGX)?\s*`. -/
def amtEqPre (pat : Mt) : Mt :=
  mseq pat (mseq3 mws0 (mlit "=") (mseq3 mws0 (mopt mCurrency) mws0))

/-- Strategy prefix `{pat}\s+(?:TSH|TZS|UGX)?\s*`. -/
def amtSpacePre (pat : Mt) : Mt :=
  mseq pat (mseq3 mws1 (mopt mCurrency) mws0)

/-- Same-line prefix `{pat}\s*[:=]?\s*` of the line-loop strategy. -/
def amtLinePre (pat : Mt) : Mt :=
  mseq pat (mseq3 mws0 (mopt (mone isColonEq)) mws0)

/-- `re.match(r'^(?:TSH|TZS|UGX)?\s*([0-9\,\.]+)', next_line.strip(), re.I)`. -/
def amtNextLine (raw : Chars) : Option Chars :=
  capClsHere (mseq (mopt mCurrency) mws0) isAmountCh (pyStripL raw)

def amtNextScan : List Chars → Option Chars
  | [] => none
  | raw :: rest =>
    match amtNextLine raw with
    | some v => some v
    | none => amtNextScan rest

/-- The per-line fallback of `find_amount`: for each line containing the
label, try the same-line amount, then the next two lines anchored. -/
def amtLineLoop (pat : Mt) : List Chars → Option Chars
  | [] => none
  | ln :: rest =>
    if msearch pat ln then
      match capSearch (amtLinePre pat) isAmountCh ln with
      | some v => some v
      | none =>
        match amtNextScan (rest.take 2) with
        | some v => some v
        | none => amtLineLoop pat rest
    else amtLineLoop pat rest

def findAmountOne (pat : Mt) (ntext : Chars) : Option Chars :=
  orO (capSearch (amtColonPre pat) isAmountCh ntext)
    (orO (capSearch (amtEqPre pat) isAmountCh ntext)
      (orO (capSearch (amtSpacePre pat) isAmountCh ntext)
        (amtLineLoop pat (splitOnCh '\n' ntext))))

/-- `find_amount(label_patterns)` over the normalized full text. -/
def findAmount (pats : List Mt) (ntext : Chars) : Option Chars :=
  firstSome (fun p => findAmountOne p ntext) pats

/-- `Net\s*Value | Net\s*Amount | Subtotal | Net\s*:` (subtotal candidates,
in source order). -/
def subtotalPats : List Mt :=
  [mseq3 (mlit "Net") mws0 (mlit "Value"),
   mseq3 (mlit "Net") mws0 (mlit "Amount"),
   mlit "Subtotal",
   mseq3 (mlit "Net") mws0 (mlit ":")]

/-- `VAT | Tax | GST | Sales\s*Tax` (tax candidates, in source order). -/
def taxPats : List Mt :=
  [mlit "VAT", mlit "Tax", mlit "GST", mseq3 (mlit "Sales") mws0 (mlit "Tax")]

/-- `Gross\s*Value | Total\s*Amount | Grand\s*Total | Total\s*(?::|\s)`. -/
def totalPats : List Mt :=
  [mseq3 (mlit "Gross") mws0 (mlit "Value"),
   mseq3 (mlit "Total") mws0 (mlit "Amount"),
   mseq3 (mlit "Grand") mws0 (mlit "Total"),
   mseq3 (mlit "Total") mws0 (maltL [mlit ":", mone pyIsSpace])]

/-! ### Line-item extraction (source lines 460-591) -/

/-- A Python number: the source stores `qty` either as `int` or as `float`. -/
inductive PyNum where
  | pint : ℤ → PyNum
  | pfloat : Dec → PyNum
deriving DecidableEq

/-- One line-item dict.  `code` is the optional `'code'` key; `value` and
`rate` hold Decimal values (modelled by `Dec`). -/
structure Item where
  description : String
  qty : PyNum
  unit : Option String
  value : Option Dec
  rate : Option Dec
  code : Option String
deriving DecidableEq

/-- Tokenizer state for `re.findall(r'[0-9\,]+\.?\d*', line)`: grab one
greedy token starting at a digit/comma. -/
def grabTok (l : Chars) : Chars × Chars :=
  let p1 := l.takeWhile (fun c => c.isDigit || c == ',')
  let r1 := l.dropWhile (fun c => c.isDigit || c == ',')
  match r1 with
  | '.' :: r2 => (p1 ++ '.' :: r2.takeWhile Char.isDigit, r2.dropWhile Char.isDigit)
  | _ => (p1, r1)

/-- One pass computing both `re.findall(tok, line)` and
`re.sub(tok, '|', line)` (fuel = remaining length; each step consumes at
least one character, so the fuel never runs out). -/
def tokSplitF : ℕ → Chars → List Chars × Chars
  | 0, l => ([], l)
  | _ + 1, [] => ([], [])
  | fuel + 1, c :: r =>
    if c.isDigit || c == ',' then
      let (tok, rem) := grabTok (c :: r)
      let (ts, txt) := tokSplitF fuel rem
      (tok :: ts, '|' :: txt)
    else
      let (ts, txt) := tokSplitF fuel r
      (ts, c :: txt)

/-- `numbers = re.findall(r'[0-9\,]+\.?\d*', line_stripped)`. -/
def numTokensC (l : Chars) : List Chars := (tokSplitF l.length l).1

/-- `text_only = re.sub(r'[0-9\,]+\.?\d*', '|', line_stripped)` followed by
`[p.strip() for p in text_only.split('|') if p.strip()]`. -/
def textPartsC (l : Chars) : List Chars :=
  ((splitOnCh '|' (tokSplitF l.length l).2).map pyStripL).filter (fun p => !p.isEmpty)

/-- `float(tok.replace(',', ''))` for a token of the item tokenizer,
modelled exactly (fails, like Python, when no digit remains). -/
def pyFloatOfTok (t : Chars) : Option Dec :=
  pyUnsignedDec (t.filter (fun c => c != ','))

/-- The list comprehension `[float(n.replace(',', '')) for n in numbers]`:
one failure aborts the whole conversion (the exception is caught by the
surrounding `try`). -/
def pyFloats : List Chars → Option (List Dec)
  | [] => some []
  | t :: r =>
    match pyFloatOfTok t, pyFloats r with
    | some q, some qs => some (q :: qs)
    | _, _ => none

/-- Python `max(list)` for a nonempty list (0 on the empty list, which the
source never reaches); on equal values the earlier element is kept. -/
def listMax : List Dec → Dec
  | [] => decZero
  | a :: r => r.foldl (fun cur x => if valBlt cur x then x else cur) a

/-- `int(x) if x == int(x) else x` for a float value. -/
def pyCastIfIntegral (d : Dec) : PyNum :=
  if isIntegralDec d then .pint (decToInt d) else .pfloat d

/-- Modelled round trip `to_decimal(str(x))` for a float `x`: the identity
on the exact value.  (Real Python diverges for huge magnitudes, where
`str` switches to exponent notation; see the C4 analysis.) -/
def roundTripDecimal (d : Dec) : Option Dec := some d

/-- The qty scan of the `len(float_numbers) >= 3` branch (source lines
560-564): first token that is in (0.1, 1000), integral or within 0.1 of
its rounding, and at most `max/100`; the inner test failing does not end
the loop. -/
def qtyScan (maxN : Dec) : List Dec → Option ℤ
  | [] => none
  | fn :: rest =>
    if valBlt ⟨1, 1⟩ fn && valBlt fn ⟨1000, 0⟩ && (isIntegralDec fn || withinTenthOfRound fn) then
      if valBle fn ⟨maxN.mant, maxN.exp + 2⟩ then some (pyRoundD fn) else qtyScan maxN rest
    else qtyScan maxN rest

/-- Role assignment by numeric token count (source lines 538-567). -/
def assignRoles (fns : List Dec) (it : Item) : Item :=
  match fns with
  | [] => it
  | [f0] => { it with value := roundTripDecimal f0 }
  | [f0, f1] =>
    if valBlt f0 f1 then
      { it with qty := pyCastIfIntegral f0, value := roundTripDecimal f1 }
    else
      { it with qty := pyCastIfIntegral f1, value := roundTripDecimal f0 }
  | f0 :: f1 :: f2 :: rest =>
    let all := f0 :: f1 :: f2 :: rest
    let maxN := listMax all
    let it1 :=
      match qtyScan maxN all with
      | some z => { it with qty := .pint z }
      | none => it
    { it1 with value := roundTripDecimal maxN }

/-- `re.search(r'\b(\d{3,6})\b', full_text)`: first word-bounded run of 3
to 6 digits. -/
def findCodeAux : Option Char → Chars → Option Chars
  | _, [] => none
  | prev, l@(c :: r) =>
    if boundaryBeforeB prev && c.isDigit then
      let run := l.takeWhile Char.isDigit
      let n := run.length
      if 3 ≤ n && n ≤ 6 &&
          (match l.drop n with
           | [] => true
           | d :: _ => !isWordCh d) then
        some run
      else findCodeAux (some c) r
    else findCodeAux (some c) r

def findCode (l : Chars) : Option Chars := findCodeAux none l

/-- The unit alternation `\b(NOS|PCS|KG|HR|LTR|PIECES?|UNITS?|BOX|CASE|SETS?|PC|KIT)\b`
expanded in the priority order of the `re` engine. -/
def unitAlts : List String :=
  ["NOS", "PCS", "KG", "HR", "LTR", "PIECES", "PIECE", "UNITS", "UNIT",
   "BOX", "CASE", "SETS", "SET", "PC", "KIT"]

def findUnitAux : Option Char → Chars → Option Chars
  | _, [] => none
  | prev, l@(c :: r) =>
    if boundaryBeforeB prev then
      match firstSome
          (fun (u : String) =>
            match ciDropLit u.data l with
            | some rem =>
              if (match rem with
                  | [] => true
                  | d :: _ => !isWordCh d) then some (l.take u.data.length)
              else none
            | none => none)
          unitAlts with
      | some m => some m
      | none => findUnitAux (some c) r
    else findUnitAux (some c) r

/-- Leftmost word-bounded unit-code occurrence; returns the matched text
in its original case (Python `m.group(1)`). -/
def findUnit (l : Chars) : Option Chars := findUnitAux none l

/-- `re.sub(r'\b' + unit + r'\b', '', description, flags=re.I)`: remove all
word-bounded case-insensitive occurrences of the matched unit text. -/
def removeTokF (tk : Chars) : ℕ → Option Char → Chars → Chars
  | 0, _, l => l
  | _ + 1, _, [] => []
  | f + 1, prev, l@(c :: r) =>
    if boundaryBeforeB prev && tokAtBnd tk l then
      removeTokF tk f ((l.take tk.length).getLast?) (l.drop tk.length)
    else c :: removeTokF tk f (some c) r

def removeTokAll (tk : Chars) (l : Chars) : Chars := removeTokF tk l.length none l

/-- Python truthiness of a Decimal-or-missing value: present and nonzero. -/
def decTruthy : Option Dec → Bool
  | none => false
  | some d => d.mant != 0

/-- Python truthiness of the qty slot. -/
def qtyTruthy : PyNum → Bool
  | .pint n => n != 0
  | .pfloat q => q.mant != 0

/-- The `try` block of an item row (source lines 503-571), for a stripped
line with both text parts and numeric tokens: `none` models both the
caught exception (a digit-free token) and every skip path. -/
def itemOfLine (ls : Chars) : Option Item :=
  let numbers := numTokensC ls
  let parts := textPartsC ls
  let fullText := List.intercalate [' '] parts
  if fullText.length < 2 then none
  else
    match pyFloats numbers with
    | none => none
    | some fns =>
      let desc0 := fullText.take 255
      let code := if fns.isEmpty then none else (findCode fullText).map mkS
      let (unit, desc1) :=
        match findUnit ls with
        | some u => (some (mkS (pyUpperL u)), (pyStripL (removeTokAll u desc0)).take 255)
        | none => (none, desc0)
      let it0 : Item :=
        { description := mkS desc1, qty := .pint 1, unit := unit,
          value := none, rate := none, code := code }
      let it1 := assignRoles fns it0
      if it1.description != "" && (decTruthy it1.value || qtyTruthy it1.qty) then some it1
      else none

/-- Table-header detection (source lines 470-477): number of the six
keyword classes present in the line. -/
def keywordCount (l : Chars) : ℕ :=
  (if kwHit ["Sr", "S.N", "Serial", "No"] l then 1 else 0) +
  (if kwHit ["Item", "Code"] l then 1 else 0) +
  (if kwHit ["Description", "Desc"] l then 1 else 0) +
  (if kwHit ["Qty", "Quantity", "Type"] l then 1 else 0) +
  (if kwHit ["Rate", "Price", "Unit", "UnitPrice"] l then 1 else 0) +
  (if kwHit ["Value", "Amount", "Total"] l then 1 else 0)

/-- Terminal-line test (source line 486):
`re.search(r'(?:Net\s*Value|Gross\s*Value|Grand\s*Total|Total\s*:|Payment|Delivery|Remarks|NOTE)', line, re.I)`. -/
def terminalLine (l : Chars) : Bool :=
  msearch
    (maltL
      [mseq3 (mlit "Net") mws0 (mlit "Value"),
       mseq3 (mlit "Gross") mws0 (mlit "Value"),
       mseq3 (mlit "Grand") mws0 (mlit "Total"),
       mseq3 (mlit "Total") mws0 (mlit ":"),
       mlit "Payment", mlit "Delivery", mlit "Remarks", mlit "NOTE"])
    l

/-- State of the item-scanning loop. -/
structure ScanSt where
  items : List Item
  started : Bool
  hdrIdx : ℤ
deriving DecidableEq

def lastValue : List Item → Option Dec
  | [] => none
  | [i] => i.value
  | _ :: r => lastValue r

def updateLastValue (v : Option Dec) : List Item → List Item
  | [] => []
  | [i] => [{ i with value := v }]
  | i :: r => i :: updateLastValue v r

/-- One iteration of the item loop (source lines 464-591).  The returned
flag is `false` exactly when the loop `break`s on a terminal line. -/
def stepLine (idx : ℤ) (rawLine : Chars) (s : ScanSt) : ScanSt × Bool :=
  let ls := pyStripL rawLine
  if ls.isEmpty then (s, true)
  else if 3 ≤ keywordCount ls then ({ s with started := true, hdrIdx := idx }, true)
  else if s.started && decide (s.hdrIdx + 1 < idx) && terminalLine ls then (s, false)
  else if s.started && decide (s.hdrIdx < idx) then
    let numbers := numTokensC ls
    let parts := textPartsC ls
    if numbers.isEmpty && parts.isEmpty then (s, true)
    else if !parts.isEmpty && !numbers.isEmpty then
      match itemOfLine ls with
      | some it => ({ s with items := s.items ++ [it] }, true)
      | none => (s, true)
    else if !numbers.isEmpty && parts.isEmpty then
      if s.items.isEmpty then (s, true)
      else
        match pyFloats numbers with
        | none => (s, true)
        | some fns =>
          let v := listMax fns
          if valBlt decZero v && !s.items.isEmpty && !decTruthy (lastValue s.items) then
            ({ s with items := updateLastValue (roundTripDecimal v) s.items }, true)
          else (s, true)
    else (s, true)
  else (s, true)

def runLines : List (ℤ × Chars) → ScanSt → List Item
  | [], s => s.items
  | (i, l) :: rest, s =>
    match stepLine i l s with
    | (s1, true) => runLines rest s1
    | (s1, false) => s1.items

def enumFrom (i : ℤ) : List Chars → List (ℤ × Chars)
  | [] => []
  | l :: r => (i, l) :: enumFrom (i + 1) r

/-- The complete line-item extraction over the normalized text. -/
def extractItems (ntext : Chars) : List Item :=
  runLines (enumFrom 0 (splitOnCh '\n' ntext)) ⟨[], false, -1⟩

/-! ### `extract_field_value` (source lines 136-186) -/

def notNlColonBrace (c : Char) : Bool := !(c == '\n' || c == ':' || c == '\x7b')

/-- Trailing-label stoplist of strategy 1 (source line 151). -/
def kwStop1 : List String :=
  ["Tel", "Fax", "Del", "Ref", "Date", "Kind", "Attended", "Type", "Payment",
   "Delivery", "Reference", "PI", "Cust", "Qty", "Rate", "Value"]

/-- Stoplist of strategy 2 (source line 160; adds SR and NO). -/
def kwStop2 : List String := kwStop1 ++ ["SR", "NO"]

def kwAfterWs (kws : List String) (l : Chars) : Bool :=
  startsKwList kws (l.dropWhile pyIsSpace)

/-- `re.sub(r'\s+(?:kw1|kw2|...)\b.*$', '', value, flags=re.I)`: truncate at
the first whitespace character whose run is immediately followed by a
stoplist keyword with a word boundary after it. -/
def truncAfterWsKw (kws : List String) : Chars → Chars
  | [] => []
  | l@(c :: r) =>
    if pyIsSpace c && kwAfterWs kws l then [] else c :: truncAfterWsKw kws r

/-- Strategy 1: `{pattern}\s*[:=]\s*([^\n:{]+)` with the stoplist cleanup;
an empty or fully-cleaned value falls through to the next strategy. -/
def s1val (pat : Mt) (ntext : Chars) : Option Chars :=
  match capSearch (mseq pat (mseq3 mws0 (mone isColonEq) mws0)) notNlColonBrace ntext with
  | none => none
  | some raw =>
    let v := pyStripL raw
    if v.isEmpty then none
    else
      let v2 := pyStripL (truncAfterWsKw kwStop1 v)
      if v2.isEmpty then none else some v2

/-- Lookahead `(?=\n[A-Z]|\s{2,}[A-Z]|\n$|$)` of strategy 2 (with `re.M`,
`$` also matches before a newline). -/
def s2look (rem : Chars) : Bool :=
  rem.isEmpty || rem.head? == some '\n' ||
    (let n := (rem.takeWhile pyIsSpace).length
     2 ≤ n &&
       (match rem.drop n with
        | d :: _ => d.isAlpha
        | [] => false))

/-- Lazy expansion `[^\n:{]*?` of the strategy-2 capture group: shortest
first, stopping as soon as the lookahead holds. -/
def s2lazy (acc : Chars) : Chars → Option Chars
  | [] => if s2look [] then some acc.reverse else none
  | l@(c :: r) =>
    if s2look l then some acc.reverse
    else if c == '\n' || c == ':' || c == '\x7b' then none
    else s2lazy (c :: acc) r

def s2here (pat : Mt) (l : Chars) : Option Chars :=
  firstSome
    (fun rem =>
      let n := (rem.takeWhile pyIsSpace).length
      if n == 0 then none
      else
        match rem.drop n with
        | c :: r2 => if c.isAlpha then s2lazy [c] r2 else none
        | [] => none)
    (pat l)

def s2scan (pat : Mt) : Chars → Option Chars
  | [] => none
  | l@(_ :: r) => orO (s2here pat l) (s2scan pat r)

/-- Strategy 2: `{pattern}\s+(?![:=])([A-Z][^\n:{]*?)(?=...)` with the
stoplist cleanup and the `len(value) > 2` requirement. -/
def s2val (pat : Mt) (ntext : Chars) : Option Chars :=
  match s2scan pat ntext with
  | none => none
  | some g =>
    let v := pyStripL g
    if v.isEmpty then none
    else
      let v2 := pyStripL (truncAfterWsKw kwStop2 v)
      if !v2.isEmpty && 2 < v2.length then some v2 else none

def kwS3a : List String := ["Tel", "Fax", "Del", "Ref", "Date"]

def kwS3b : List String :=
  ["Tel", "Fax", "Del", "Ref", "Date", "SR", "NO", "Code", "Customer", "Address"]

/-- `re.match(r'^[A-Z]+[a-zA-Z\s]*\s*[:=]', line)` (case-sensitive first
letter) and its `re.I` variant: first character admissible, and the first
character that is neither a letter nor whitespace is a colon or equals. -/
def labelLikeWith (firstOk : Char → Bool) (l : Chars) : Bool :=
  match l with
  | [] => false
  | c :: r =>
    firstOk c &&
      (match r.dropWhile (fun x => x.isAlpha || pyIsSpace x) with
       | [] => false
       | d :: _ => d == ':' || d == '=')

def labelLikeUC (l : Chars) : Bool := labelLikeWith Char.isUpper l

def labelLikeCI (l : Chars) : Bool := labelLikeWith Char.isAlpha l

/-- Strategy 3, same-line part: `{pattern}\s*[:=]?\s*(.+)$` on one line
plus the value filters of source lines 170-173. -/
def s3same (pat : Mt) (ln : Chars) : Option Chars :=
  match capRestSearch (mseq pat (mseq3 mws0 (mopt (mone isColonEq)) mws0)) ln with
  | none => none
  | some rem =>
    let v := pyStripL rem
    if v.isEmpty then none
    else if v == [':'] || v == ['='] then none
    else if startsKwList kwS3a v then none
    else some v

/-- Strategy 3, next-line part (source lines 176-184): scan up to three
following lines, break on a label-like line. -/
def s3next : List Chars → Option Chars
  | [] => none
  | raw :: rest =>
    let nl := pyStripL raw
    if !nl.isEmpty && !labelLikeUC nl then
      if 2 < nl.length && !startsKwList kwS3b nl then some nl else s3next rest
    else if labelLikeUC nl then none
    else s3next rest

def s3loop (pat : Mt) : List Chars → Option Chars
  | [] => none
  | ln :: rest =>
    if msearch pat ln then
      match s3same pat ln with
      | some v => some v
      | none =>
        match s3next (rest.take 3) with
        | some v => some v
        | none => s3loop pat rest
    else s3loop pat rest

def s3val (pat : Mt) (ntext : Chars) : Option Chars :=
  s3loop pat (splitOnCh '\n' ntext)

/-- `extract_field_value(label_patterns)`: per candidate pattern, strategy
1 then 2 then 3; first hit wins, `None` otherwise. -/
def extractFieldValue (pats : List Mt) (ntext : Chars) : Option Chars :=
  firstSome (fun p => orO (s1val p ntext) (orO (s2val p ntext) (s3val p ntext))) pats

/-! ### Field label patterns (source lines 189-193, 222-227, 288, 315-321,
414, 438, 443, 450, 453) -/

def codeNoPats : List Mt :=
  [mseq3 (mlit "Code") mws0 (mlit "No"),
   mseq3 (mlit "Code") mws0 (mlit "#"),
   mseq (mlit "Code") (maltL [mone pyIsSpace, mlit ":"])]

def customerPats : List Mt :=
  [mseq3 (mlit "Customer") mws0 (mlit "Name"),
   mseq3 (mlit "Bill") mws0 (mlit "To"),
   mseq3 (mlit "Buyer") mws0 (mlit "Name"),
   mseq3 (mlit "Client") mws0 (mlit "Name")]

def telPat : Mt := maltL [mlit "Tel", mlit "Telephone", mlit "Phone"]

def referencePat : Mt :=
  maltL [mlit "Reference", mseq (mlit "Ref") (mopt (mlit ".")), mlit "For", mlit "FOR"]

def invoicePats : List Mt :=
  [mseq3 (mlit "PI") mws0 (maltL [mlit "No", mlit "Number", mlit "#"]),
   mseq3 (mlit "Invoice") mws0 (maltL [mlit "No", mlit "Number"])]

def paymentPat : Mt :=
  maltL [mlit "Payment",
         mseq3 (mlit "Payment") mws0 (mlit "Method"),
         mseq3 (mlit "Payment") mws0 (mlit "Type")]

def deliveryPat : Mt :=
  maltL [mlit "Delivery", mseq3 (mlit "Delivery") mws0 (mlit "Terms")]

def remarksPat : Mt := maltL [mlit "Remarks", mlit "Notes", mlit "NOTE"]

def attendedPat : Mt :=
  maltL [mseq3 (mlit "Attended") mws0 (mlit "By"), mlit "Attended",
         mseq3 (mlit "Served") mws0 (mlit "By")]

def kindPat : Mt :=
  maltL [mseq3 (mlit "Kind") mws0 (mlit "Attention"),
         mseq3 (mlit "Kind") mws0 (mlit "Attn")]

/-! ### Name / address classification (source lines 196-219) -/

def pyWordsF : ℕ → Chars → List Chars
  | 0, _ => []
  | f + 1, l =>
    let l1 := l.dropWhile pyIsSpace
    if l1.isEmpty then []
    else l1.takeWhile (fun c => !pyIsSpace c) :: pyWordsF f (l1.dropWhile (fun c => !pyIsSpace c))

/-- Python `str.split()` (whitespace words). -/
def pyWords (l : Chars) : List Chars := pyWordsF l.length l

/-- Python `str.isupper()` on ASCII text: at least one letter and no
lowercase letter. -/
def pyIsUpperL (l : Chars) : Bool :=
  l.any Char.isAlpha && l.all (fun c => !c.isLower)

def addressKw1 : List String :=
  ["street", "avenue", "road", "box", "p.o", "po", "floor", "apt", "suite",
   "district", "region"]

/-- `is_likely_customer_name` (source lines 196-207). -/
def isLikelyCustomerName (l : Chars) : Bool :=
  if l.isEmpty then false
  else
    let lo := toLowerL l
    let hasNoKw := !(addressKw1.any (fun k => containsL k.data lo))
    let isCap :=
      decide (2 < l.length) &&
        ((match l.head? with
          | some c => c.isUpper
          | none => false) || pyIsUpperL l)
    hasNoKw && isCap && decide (3 < l.length)

def addressKw2 : List String :=
  ["street", "avenue", "road", "box", "p.o", "po", "floor", "apt", "suite",
   "district", "region", "city", "country", "zip", "postal", "dar", "dar-es",
   "tanzania", "nairobi", "kenya"]

/-- `is_likely_address` (source lines 209-219). -/
def isLikelyAddress (l : Chars) : Bool :=
  if l.isEmpty then false
  else
    let lo := toLowerL l
    (addressKw2.any (fun k => containsL k.data lo)) ||
      ((l.any Char.isDigit) && (l.contains ',' || decide (2 < (pyWords l).length)))

/-! ### Address extraction (source lines 234-274) -/

def contLabels : List String :=
  ["Tel", "Telephone", "Phone", "Fax", "Del.", "Ref", "Date", "PI", "Kind",
   "Attended", "Type", "Payment", "Delivery", "Reference"]

def addrCleanKws : List String :=
  ["Tel", "Fax", "Del", "Ref", "Date", "PI", "Cust", "Kind", "Attended",
   "Type", "Payment", "Delivery", "Reference"]

def startsAddressCI (l : Chars) : Bool := (ciDropLit "Address".data l).isSome

/-- `re.search(r'^Address\s*[:=]?\s*(.+)$', line, re.I)` followed by
`.strip()`: the stripped captured value (backtracking can hand a lone
colon or pure whitespace to the group; a whitespace-only capture strips
to empty and is treated like a missed match, as the caller only tests
truthiness). -/
def addrValOf (l : Chars) : Option Chars :=
  match ciDropLit "Address".data l with
  | none => none
  | some r0 =>
    let r1 := r0.dropWhile pyIsSpace
    match r1 with
    | [] => none
    | c :: r2 =>
      if c == ':' || c == '=' then
        let r3 := r2.dropWhile pyIsSpace
        if r3.isEmpty then some (pyStripL r1) else some (pyStripL r3)
      else some (pyStripL r1)

/-- Continuation collection (source lines 248-266) over the next four
cleaned lines; cleaned lines are never blank, so the blank-skip of the
source is vacuous here. -/
def collectCont : List Chars → List Chars
  | [] => []
  | nl :: rest =>
    if labelLikeCI nl then []
    else if startsKwList contLabels nl then []
    else if nl.length < 150 then nl :: collectCont rest
    else collectCont rest

def extractAddress : List Chars → Option Chars
  | [] => none
  | line :: rest =>
    if startsAddressCI line then
      let parts0 :=
        match addrValOf line with
        | some v => if !v.isEmpty && !labelLikeUC v then [v] else []
        | none => []
      let parts := parts0 ++ collectCont (rest.take 4)
      if parts.isEmpty then extractAddress rest
      else
        let addr := pyStripL (truncAfterWsKw addrCleanKws (pyStripL (List.intercalate [' '] parts)))
        if addr.isEmpty then extractAddress rest else some addr
    else extractAddress rest

/-! ### Name / address disambiguation (source lines 229-231 and 276-285) -/

def pyTruthyO : Option Chars → Bool
  | none => false
  | some s => !s.isEmpty

def likelyNameO : Option Chars → Bool
  | none => false
  | some s => isLikelyCustomerName s

def likelyAddrO : Option Chars → Bool
  | none => false
  | some s => isLikelyAddress s

/-- Pre-validation (source lines 229-231): an address-like, not name-like
customer name is cleared. -/
def danStep1 (cn0 : Option Chars) : Option Chars :=
  if pyTruthyO cn0 && likelyAddrO cn0 && !likelyNameO cn0 then none else cn0

/-- Swap (source lines 276-279): a missing customer name takes over a
name-like address. -/
def danStep2 (cn1 ad0 : Option Chars) : Option Chars × Option Chars :=
  if !pyTruthyO cn1 && pyTruthyO ad0 && likelyNameO ad0 then (ad0, (none : Option Chars))
  else (cn1, ad0)

/-- Guarded move (source lines 281-285): an address-like, not name-like
customer name moves into an empty address slot. -/
def danStep3 (p : Option Chars × Option Chars) : Option Chars × Option Chars :=
  if pyTruthyO p.1 && likelyAddrO p.1 && !likelyNameO p.1 then
    if !pyTruthyO p.2 then (none, p.1) else p
  else p

/-- The three sequential fixups applied to the extracted pair, in source
order. -/
def disambiguateNameAddress (cn0 ad0 : Option Chars) : Option Chars × Option Chars :=
  danStep3 (danStep2 (danStep1 cn0) ad0)

/-! ### Phone cleanup (source lines 288-306) -/

def isWsSlash (c : Char) : Bool := pyIsSpace c || c == '/'

/-- `re.sub(r'[\s/]+Fax.*$', '', phone, flags=re.I)`. -/
def truncSub1 : Chars → Chars
  | [] => []
  | l@(c :: r) =>
    if isWsSlash c && (ciDropLit "Fax".data (l.dropWhile isWsSlash)).isSome then []
    else c :: truncSub1 r

def kwAnywhere (kws : List String) : Chars → Bool
  | [] => false
  | l@(_ :: r) => startsKwList kws l || kwAnywhere kws r

def phoneKwA : List String := ["Tel", "Fax", "Email", "Address", "Ref"]

/-- `re.sub(r'[\s/]+.*(?:Tel|Fax|Email|Address|Ref)\b.*$', '', phone, re.I)`:
truncate at the first whitespace-or-slash character strictly before some
keyword occurrence. -/
def truncSub2 : Chars → Chars
  | [] => []
  | c :: r =>
    if isWsSlash c && kwAnywhere phoneKwA r then [] else c :: truncSub2 r

def hasDigitRun5 : Chars → Bool
  | [] => false
  | l@(_ :: r) => decide (5 ≤ (l.takeWhile Char.isDigit).length) || hasDigitRun5 r

/-- `re.sub(r'^(?:Tel|Phone|Telephone)\s*[:=]?\s*', '', phone, re.I)`
(alternation priority makes `Tel` win inside `Telephone`). -/
def dropPhoneLabel (l : Chars) : Chars :=
  match firstSome (fun (k : String) => ciDropLit k.data l) ["Tel", "Phone", "Telephone"] with
  | none => l
  | some r0 =>
    let r1 := r0.dropWhile pyIsSpace
    match r1 with
    | c :: r2 => if c == ':' || c == '=' then r2.dropWhile pyIsSpace else r1
    | [] => []

def phoneCleanup (p0 : Option Chars) : Option Chars :=
  match p0 with
  | none => none
  | some ph0 =>
    if ph0.isEmpty then some ph0
    else
      let ph1 := pyStripL (truncSub1 ph0)
      let ph2 := pyStripL (truncSub2 ph1)
      if !ph2.isEmpty && !hasDigitRun5 ph2 then none
      else if ph2.isEmpty then some ph2
      else
        let p4 := pyStripL (dropPhoneLabel ph2)
        let p5 := if p4.contains '/' then pyStripL ((splitOnCh '/' p4).headD []) else p4
        if !p5.isEmpty && !(p5.any Char.isDigit) then none else some p5

/-! ### Email (source lines 309-312) -/

def isEmailCh (c : Char) : Bool := isWordCh c || c == '.' || c == '-'

/-- The greedy split of the domain run for `[\w\.-]+\.\w+`: the last dot
followed by a word character. -/
def lastDotSplit (l : Chars) : Option (Chars × Chars) :=
  match ((List.range l.length).filter
      (fun i => decide (1 ≤ i) && (l.getD i '-' == '.') && isWordCh (l.getD (i + 1) ' '))).getLast? with
  | none => none
  | some i => some (l.take i, (l.drop (i + 1)).takeWhile isWordCh)

def emailHere (l : Chars) : Option Chars :=
  let run1 := l.takeWhile isEmailCh
  if run1.isEmpty then none
  else
    match l.drop run1.length with
    | '@' :: r2 =>
      match lastDotSplit (r2.takeWhile isEmailCh) with
      | some (dom, tld) => some (run1 ++ '@' :: dom ++ '.' :: tld)
      | none => none
    | _ => none

/-- `re.search(r'([\w\.-]+@[\w\.-]+\.\w+)', text)`. -/
def findEmail : Chars → Option Chars
  | [] => none
  | l@(_ :: r) => orO (emailHere l) (findEmail r)

/-! ### Date (source lines 324-335) -/

def digTake (maxN : ℕ) (l : Chars) : List ℕ :=
  let n := min (l.takeWhile Char.isDigit).length maxN
  (List.range n).map (fun k => n - k)

/-- `\d{1,2}[/\-]\d{1,2}[/\-]\d{2,4}` anchored at the current position,
with the greedy backtracking order of the engine. -/
def dateTokHere (l : Chars) : Option Chars :=
  firstSome
    (fun n1 =>
      let d1 := l.take n1
      match l.drop n1 with
      | s1 :: r1b =>
        if s1 == '/' || s1 == '-' then
          firstSome
            (fun n2 =>
              let d2 := r1b.take n2
              match r1b.drop n2 with
              | s2 :: r2b =>
                if s2 == '/' || s2 == '-' then
                  firstSome
                    (fun n3 =>
                      if n3 < 2 then none
                      else some (d1 ++ s1 :: d2 ++ s2 :: r2b.take n3))
                    (digTake 4 r2b)
                else none
              | [] => none)
            (digTake 2 r1b)
        else none
      | [] => none)
    (digTake 2 l)

def dateAfterLabelHere (lbl : Mt) (l : Chars) : Option Chars :=
  firstSome dateTokHere (mseq lbl (mseq3 mws0 (mopt (mone isColonEq)) mws0) l)

def dateSearch (f : Chars → Option Chars) : Chars → Option Chars
  | [] => none
  | l@(_ :: r) => orO (f l) (dateSearch f r)

/-- The three date patterns in source order: labelled `Date`, labelled
`Invoice Date`, then any bare date token. -/
def findDate (ntext : Chars) : Option Chars :=
  orO (dateSearch (dateAfterLabelHere (mlit "Date")) ntext)
    (orO (dateSearch (dateAfterLabelHere (mseq3 (mlit "Invoice") mws0 (mlit "Date"))) ntext)
      (dateSearch dateTokHere ntext))

/-! ### Payment method, delivery terms, remarks (source lines 414-447) -/

/-- `re.sub(r'(?:n1|n2|...).*$', '', s, flags=re.I)`: truncate at the
leftmost case-insensitive occurrence of any needle. -/
def truncAtSub (needles : List String) : Chars → Chars
  | [] => []
  | l@(c :: r) =>
    if needles.any (fun n => (ciDropLit n.data l).isSome) then []
    else c :: truncAtSub needles r

def payMap : List (String × String) :=
  [("cash", "cash"), ("cheque", "cheque"), ("chq", "cheque"),
   ("bank", "bank_transfer"), ("transfer", "bank_transfer"), ("card", "card"),
   ("mpesa", "mpesa"), ("credit", "on_credit"), ("delivery", "on_delivery"),
   ("cod", "on_delivery")]

def paymentClean (p0 : Option Chars) : Option Chars :=
  match p0 with
  | none => none
  | some v =>
    let v1 := pyStripL (truncAtSub ["Delivery"] v)
    if !v1.isEmpty && 1 < v1.length then
      match firstSome
          (fun kv => if containsL kv.1.data (toLowerL v1) then some kv.2 else none) payMap with
      | some canon => some canon.data
      | none => some v1
    else some v1

def deliveryClean (p0 : Option Chars) : Option Chars :=
  match p0 with
  | none => none
  | some v => some (pyStripL (truncAtSub ["Remarks", "Notes", "NOTE"] v))

/-- `\d+\s*:` at the current position (deterministic: greedy digits, then
whitespace, then the colon). -/
def digitColonLen (l : Chars) : Option ℕ :=
  let d := (l.takeWhile Char.isDigit).length
  if d = 0 then none
  else
    let w := ((l.drop d).takeWhile pyIsSpace).length
    match l.drop (d + w) with
    | ':' :: _ => some (d + w + 1)
    | _ => none

/-- `NOTE\s*\d+\s*:` (used only at the start of the string). -/
def noteNumColonLen (l : Chars) : Option ℕ :=
  match ciDropLit "NOTE".data l with
  | none => none
  | some r0 =>
    let w1 := (r0.takeWhile pyIsSpace).length
    let d := ((r0.drop w1).takeWhile Char.isDigit).length
    if d = 0 then none
    else
      let w2 := (((r0.drop w1).drop d).takeWhile pyIsSpace).length
      match ((r0.drop w1).drop d).drop w2 with
      | ':' :: _ => some (4 + w1 + d + w2 + 1)
      | _ => none

/-- Global `re.sub(r'(?:\d+\s*:|^NOTE\s*\d+\s*:)', '', remarks, re.I)`. -/
def remarksSubAF : ℕ → Bool → Chars → Chars
  | 0, _, l => l
  | _ + 1, _, [] => []
  | f + 1, atStart, l@(c :: r) =>
    match digitColonLen l with
    | some k => remarksSubAF f false (l.drop k)
    | none =>
      if atStart then
        match noteNumColonLen l with
        | some k => remarksSubAF f false (l.drop k)
        | none => c :: remarksSubAF f false r
      else c :: remarksSubAF f false r

def remarksClean (p0 : Option Chars) : Option Chars :=
  match p0 with
  | none => none
  | some v =>
    let v1 := pyStripL (remarksSubAF v.length true v)
    some (pyStripL (truncAtSub ["Payment", "Delivery", "Due", "See"] v1))

/-! ### `parse_invoice_data` (source lines 88-611) -/

def normText (t : String) : Chars := pyStripL t.data

def cleanedLinesOf (ntext : Chars) : List Chars :=
  ((splitOnCh '\n' ntext).map pyStripL).filter (fun l => !l.isEmpty)

def codeNoOf (t : String) : Option String :=
  (extractFieldValue codeNoPats (normText t)).map mkS

def rawCustomerName (t : String) : Option Chars :=
  extractFieldValue customerPats (normText t)

def rawAddress (t : String) : Option Chars :=
  extractAddress (cleanedLinesOf (normText t))

/-- Customer name and address after the disambiguation fixups. -/
def nameAddrOf (t : String) : Option String × Option String :=
  let p := disambiguateNameAddress (rawCustomerName t) (rawAddress t)
  (p.1.map mkS, p.2.map mkS)

def phoneOf (t : String) : Option String :=
  (phoneCleanup (extractFieldValue [telPat] (normText t))).map mkS

def emailOf (t : String) : Option String := (findEmail (normText t)).map mkS

def referenceOf (t : String) : Option String :=
  (extractFieldValue [referencePat] (normText t)).map mkS

def invoiceNoOf (t : String) : Option String :=
  (extractFieldValue invoicePats (normText t)).map mkS

def dateOf (t : String) : Option String := (findDate (normText t)).map mkS

def subtotalOf (t : String) : Option Dec :=
  toDecimal (findAmount subtotalPats (normText t))

def taxOf (t : String) : Option Dec := toDecimal (findAmount taxPats (normText t))

def totalOf (t : String) : Option Dec := toDecimal (findAmount totalPats (normText t))

def paymentMethodOf (t : String) : Option String :=
  (paymentClean (extractFieldValue [paymentPat] (normText t))).map mkS

def deliveryTermsOf (t : String) : Option String :=
  (deliveryClean (extractFieldValue [deliveryPat] (normText t))).map mkS

def remarksOf (t : String) : Option String :=
  (remarksClean (extractFieldValue [remarksPat] (normText t))).map mkS

def attendedByOf (t : String) : Option String :=
  (extractFieldValue [attendedPat] (normText t)).map mkS

def kindAttentionOf (t : String) : Option String :=
  (extractFieldValue [kindPat] (normText t)).map mkS

def itemsOf (t : String) : List Item := extractItems (normText t)

/-- The result dict of `parse_invoice_data`. -/
structure ParseResult where
  invoice_no : Option String
  code_no : Option String
  date : Option String
  customer_name : Option String
  phone : Option String
  email : Option String
  address : Option String
  reference : Option String
  subtotal : Option Dec
  tax : Option Dec
  total : Option Dec
  items : List Item
  payment_method : Option String
  delivery_terms : Option String
  remarks : Option String
  attended_by : Option String
  kind_attention : Option String
deriving DecidableEq

/-- The all-null early return of source lines 103-122. -/
def emptyParseResult : ParseResult :=
  { invoice_no := none, code_no := none, date := none, customer_name := none,
    phone := none, email := none, address := none, reference := none,
    subtotal := none, tax := none, total := none, items := [],
    payment_method := none, delivery_terms := none, remarks := none,
    attended_by := none, kind_attention := none }

/-- `parse_invoice_data(text)` (source lines 88-611): the early return on
empty or whitespace-only input, otherwise every field computed by its own
total extractor on the stripped text. -/
def parseInvoiceData (t : String) : ParseResult :=
  if t = "" ∨ normText t = [] then emptyParseResult
  else
    { invoice_no := invoiceNoOf t, code_no := codeNoOf t, date := dateOf t,
      customer_name := (nameAddrOf t).1, phone := phoneOf t, email := emailOf t,
      address := (nameAddrOf t).2, reference := referenceOf t,
      subtotal := subtotalOf t, tax := taxOf t, total := totalOf t,
      items := itemsOf t, payment_method := paymentMethodOf t,
      delivery_terms := deliveryTermsOf t, remarks := remarksOf t,
      attended_by := attendedByOf t, kind_attention := kindAttentionOf t }

/-! ### Pipeline tail of `extract_from_bytes` (source lines 683-730) -/

structure HeaderOut where
  invoice_no : Option String
  code_no : Option String
  date : Option String
  customer_name : Option String
  phone : Option String
  email : Option String
  address : Option String
  reference : Option String
  subtotal : Option Dec
  tax : Option Dec
  total : Option Dec
deriving DecidableEq

structure PipeResult where
  success : Bool
  errorKind : Option String
  message : String
  header : Option HeaderOut
  items : List Item
  raw_text : String
deriving DecidableEq

def headerOf (p : ParseResult) : HeaderOut :=
  { invoice_no := p.invoice_no, code_no := p.code_no, date := p.date,
    customer_name := p.customer_name, phone := p.phone, email := p.email,
    address := p.address, reference := p.reference, subtotal := p.subtotal,
    tax := p.tax, total := p.total }

def allNullHeader : HeaderOut :=
  { invoice_no := none, code_no := none, date := none, customer_name := none,
    phone := none, email := none, address := none, reference := none,
    subtotal := none, tax := none, total := none }

/-- The `if text:` stage of `extract_from_bytes` applied to the extracted
text (source lines 683-730): any nonempty text is parsed and reported
with `success=True`; empty text yields the `no_text_extracted` failure
with an empty header (`header = none` models the empty dict).  The
`except` branch around `parse_invoice_data` is unreachable because the
parser is total. -/
def processExtractedText (text : String) : PipeResult :=
  if text ≠ "" then
    let parsed := parseInvoiceData text
    { success := true, errorKind := none,
      message := "Invoice data extracted successfully from PDF",
      header := some (headerOf parsed), items := parsed.items, raw_text := text }
  else
    { success := false, errorKind := some "no_text_extracted",
      message := "No text found in PDF. Please enter invoice details manually.",
      header := none, items := [], raw_text := "" }

/-- The qualification test of the source qty loop (lines 561-562), as a
Boolean predicate: `0.1 < fn < 1000`, integral or within `0.1` of its
rounding, and `fn <= max/100`. -/
def qtyQualifies (maxN fn : Dec) : Bool :=
  (valBlt ⟨1, 1⟩ fn && valBlt fn ⟨1000, 0⟩ && (isIntegralDec fn || withinTenthOfRound fn)) &&
    valBle fn ⟨maxN.mant, maxN.exp + 2⟩

/-- Modelled from the spec: claim C5's qty rule, word for word — first
token that is integral (or within 0.1 of an integer), STRICTLY less than
max/100, and strictly between 0 and 1000.  Kept separate from the source
embedding for comparison. -/
def specC5qty (fns : List Dec) : Option Dec :=
  fns.find?
    (fun fn =>
      (isIntegralDec fn ||
          decide (((Int.natAbs (fn.mant - pyRoundD fn * tenPow fn.exp) : ℤ) * 10 ≤ tenPow fn.exp))) &&
        valBlt fn ⟨(listMax fns).mant, (listMax fns).exp + 2⟩ &&
        valBlt decZero fn && valBlt fn ⟨1000, 0⟩)

/-- A concrete item record used by witness instantiations. -/
def sampleItem : Item :=
  { description := "Part", qty := .pint 1, unit := none, value := none,
    rate := none, code := none }

/-! ## Theorems -/

/-- Helper: a name-like string is nonempty (the classifier requires
length above three). -/
theorem likelyName_ne_nil {a : Chars} (h : isLikelyCustomerName a = true) :
    a.isEmpty = false := by
  cases ha : a.isEmpty with
  | false => rfl
  | true =>
    exfalso
    rw [List.isEmpty_iff.mp ha] at h
    exact absurd h (by decide)

theorem danStep1_of_falsy (cn0 : Option Chars) (h : pyTruthyO cn0 = false) :
    danStep1 cn0 = cn0 := by
  unfold danStep1
  rw [h]
  rfl

theorem danStep3_of_cond_false (p : Option Chars × Option Chars)
    (h : (pyTruthyO p.1 && likelyAddrO p.1 && !likelyNameO p.1) = false) :
    danStep3 p = p := by
  unfold danStep3
  rw [h]
  rfl

theorem danStep3_cond_of_name (p : Option Chars × Option Chars)
    (h : likelyNameO p.1 = true) :
    (pyTruthyO p.1 && likelyAddrO p.1 && !likelyNameO p.1) = false := by
  rw [h]
  simp

theorem danStep2_snd (cn1 ad0 : Option Chars) :
    danStep2 cn1 ad0 = (ad0, none) ∧ likelyNameO ad0 = true ∨
      danStep2 cn1 ad0 = (cn1, ad0) := by
  unfold danStep2
  cases hx : (!pyTruthyO cn1 && pyTruthyO ad0 && likelyNameO ad0) with
  | false => exact Or.inr rfl
  | true =>
    refine Or.inl ⟨rfl, ?_⟩
    have := (Bool.and_eq_true _ _).mp hx
    exact this.2


/-- Counterexample for claim C8: a customer name that classifies as
address-like (and not name-like) with no extracted address is CLEARED at
the pre-validation step; its value never moves into the address slot. -/
theorem claim8_cex :
    isLikelyAddress "123 Uhuru Street".data = true ∧
    isLikelyCustomerName "123 Uhuru Street".data = false ∧
    disambiguateNameAddress (some "123 Uhuru Street".data) none = (none, none) ∧
    (disambiguateNameAddress (some "123 Uhuru Street".data) none).2 ≠
      some "123 Uhuru Street".data := by
  refine ⟨by decide, by decide, by decide, by decide⟩

/-- Claim C8 as amended: (1) when the customer name is missing and the
extracted address is name-like, the value moves into the name and the
address becomes null; (2) a customer name that is address-like and not
name-like, with no address, is cleared to null and discarded — it is NOT
moved; (3) in general the final address is the extracted address or
null: no value ever moves from the name slot into the address slot. -/
theorem claim8_amended :
    (∀ (cn0 : Option Chars) (a : Chars),
      isLikelyCustomerName a = true → pyTruthyO cn0 = false →
      disambiguateNameAddress cn0 (some a) = (some a, none)) ∧
    (∀ c : Chars, c ≠ [] → isLikelyAddress c = true →
      isLikelyCustomerName c = false →
      disambiguateNameAddress (some c) none = (none, none)) ∧
    (∀ cn0 ad0 : Option Chars,
      (disambiguateNameAddress cn0 ad0).2 = ad0 ∨
        (disambiguateNameAddress cn0 ad0).2 = none) := by
  refine ⟨?_, ?_, ?_⟩
  · intro cn0 a ha hcn
    have hne := likelyName_ne_nil ha
    have hpa : pyTruthyO (some a) = true := by simp [pyTruthyO, hne]
    have hna : likelyNameO (some a) = true := by simp [likelyNameO, ha]
    unfold disambiguateNameAddress
    rw [danStep1_of_falsy cn0 hcn]
    have h2 : danStep2 cn0 (some a) = (some a, none) := by
      unfold danStep2
      rw [hcn, hpa, hna]
      rfl
    rw [h2]
    exact danStep3_of_cond_false _ (danStep3_cond_of_name _ hna)
  · intro c hc ha hn
    have hce : c.isEmpty = false := by
      cases hh : c.isEmpty with
      | false => rfl
      | true => exact absurd (List.isEmpty_iff.mp hh) hc
    have h1 : danStep1 (some c) = none := by
      unfold danStep1
      simp [pyTruthyO, likelyAddrO, likelyNameO, hce, ha, hn]
    unfold disambiguateNameAddress
    rw [h1]
    have h2 : danStep2 none none = (none, none) := by
      unfold danStep2
      rfl
    rw [h2]
    exact danStep3_of_cond_false _ (by rfl)
  · intro cn0 ad0
    unfold disambiguateNameAddress
    rcases danStep2_snd (danStep1 cn0) ad0 with ⟨h2, hname⟩ | h2
    · rw [h2, danStep3_of_cond_false _ (danStep3_cond_of_name _ hname)]
      exact Or.inr rfl
    · rw [h2]
      have hcond : (pyTruthyO (danStep1 cn0) && likelyAddrO (danStep1 cn0) &&
          !likelyNameO (danStep1 cn0)) = false := by
        unfold danStep1
        cases hx : (pyTruthyO cn0 && likelyAddrO cn0 && !likelyNameO cn0) with
        | true => simp [pyTruthyO]
        | false => simpa using hx
      rw [danStep3_of_cond_false _ hcond]
      exact Or.inl rfl

/-- Witness for C8 (amended), first part: the spec example swaps the
name-like extracted address into the empty customer name. -/
theorem claim8_witness :
    disambiguateNameAddress none (some "SAID SALIM BAKHRESA CO LTD".data) =
      (some "SAID SALIM BAKHRESA CO LTD".data, none) :=
  claim8_amended.1 none "SAID SALIM BAKHRESA CO LTD".data (by decide) rfl


/-- Helper: `Decimal(s)` fails on any digit-free string. -/
theorem pyUnsignedDec_no_digit (l : Chars) (h : ∀ c ∈ l, c.isDigit = false) :
    pyUnsignedDec l = none := by
  cases l with
  | nil => rfl
  | cons c cs =>
    have hc : c.isDigit = false := h c (by simp)
    unfold pyUnsignedDec
    simp only [List.takeWhile_cons, List.dropWhile_cons, hc, Bool.false_eq_true, if_false]
    split
    · simp
    · rename_i fr heq
      injection heq with h1 h2
      cases fr with
      | nil => simp
      | cons d ds =>
        have hd : d.isDigit = false := by
          refine h d ?_
          rw [h2]
          simp
        simp [hd]
    · rfl

/-- Helper: the early return of `parse_invoice_data` on blank input. -/
theorem parseInvoiceData_blank (t : String) (h : normText t = []) :
    parseInvoiceData t = emptyParseResult := by
  unfold parseInvoiceData
  rw [if_pos (Or.inr h)]

/-- Helper: with the item section not yet started and no header keywords
on the line, a step changes nothing. -/
theorem stepLine_not_started (i : ℤ) (l : Chars) (s : ScanSt)
    (hs : s.started = false) (hk : keywordCount (pyStripL l) < 3) :
    stepLine i l s = (s, true) := by
  have h3 : ¬ 3 ≤ keywordCount (pyStripL l) := by omega
  unfold stepLine
  simp [hs, h3]

/-- Helper: before any table header is seen, the scan loop emits nothing. -/
theorem runLines_no_header (lst : List (ℤ × Chars)) (s : ScanSt)
    (hs : s.started = false)
    (h : ∀ p ∈ lst, keywordCount (pyStripL p.2) < 3) :
    runLines lst s = s.items := by
  induction lst with
  | nil => rfl
  | cons p rest ih =>
    have hstep := stepLine_not_started p.1 p.2 s hs (h p (by simp))
    calc runLines (p :: rest) s
        = runLines rest s := by
          cases p with
          | mk i l => simp only [runLines, hstep]
      _ = s.items := ih (fun q hq => h q (by simp [hq]))

theorem enumFrom_snd_mem (ls : List Chars) :
    ∀ (i : ℤ) (p : ℤ × Chars), p ∈ enumFrom i ls → p.2 ∈ ls := by
  induction ls with
  | nil => intro i p hp; cases hp
  | cons a r ih =>
    intro i p hp
    rcases hp with _ | hp
    · simp
    · exact List.mem_cons_of_mem a (ih (i + 1) p (by assumption))

theorem pyDecimalOfChars_no_digit (l : Chars) (h : ∀ c ∈ l, c.isDigit = false) :
    pyDecimalOfChars l = none := by
  unfold pyDecimalOfChars
  split
  · rename_i r
    rw [pyUnsignedDec_no_digit r (fun c hc => h c (by simp [hc]))]
    rfl
  · exact pyUnsignedDec_no_digit l h

/-- Claim C7: an amount string whose cleaned form (digits, dot, comma,
dash retained) consists solely of punctuation parses to null, never zero;
in particular `"VAT: ,"` yields `tax = null`. -/
theorem claim7_punct_only_null :
    (∀ s : String,
      (cleanAmount s.data).all (fun c => c == '.' || c == ',' || c == '-') = true →
      toDecimalCh s.data = none) ∧
    (parseInvoiceData "VAT: ,").tax = none := by
  constructor
  · intro s h
    unfold toDecimalCh
    split
    · rfl
    · split
      · rfl
      · apply pyDecimalOfChars_no_digit
        intro c hc
        have hmem := List.mem_filter.mp hc
        have hp := List.all_eq_true.mp h c hmem.1
        have : (c = '.' ∨ c = ',') ∨ c = '-' := by
          simpa using hp
        rcases this with (rfl | rfl) | rfl <;> rfl
  · decide

/-- Witness for C7: a punctuation-only cleaned amount gives null. -/
theorem claim7_witness : toDecimalCh ".,-x".data = none :=
  claim7_punct_only_null.1 ".,-x" (by decide)

/-- Claim C10: if no line of the text has at least 3 of the 6 table-header
keyword classes, `parse_invoice_data` returns no line items — nothing is
emitted before a header line has been detected. -/
theorem claim10_no_header_no_items (t : String)
    (h : ∀ l ∈ splitOnCh '\n' (normText t), keywordCount (pyStripL l) < 3) :
    (parseInvoiceData t).items = [] := by
  by_cases hb : t = "" ∨ normText t = []
  · unfold parseInvoiceData
    rw [if_pos hb]
    rfl
  · unfold parseInvoiceData
    rw [if_neg hb]
    show itemsOf t = []
    unfold itemsOf extractItems
    exact runLines_no_header _ _ rfl
      (fun p hp => h p.2 (enumFrom_snd_mem _ 0 p hp))

/-- Witness for C10 at a concrete header-free text. -/
theorem claim10_witness :
    (parseInvoiceData "Hello\nWorld 5 10").items = [] :=
  claim10_no_header_no_items "Hello\nWorld 5 10" (by decide)

/-- Helper: a line in the item region whose item parse fails (the caught
exception and the skip paths of the row `try` block) leaves the state
unchanged and the scan running. -/
theorem stepLine_item_none (i : ℤ) (l : Chars) (s : ScanSt)
    (hk : keywordCount (pyStripL l) < 3)
    (ht : terminalLine (pyStripL l) = false)
    (hp : textPartsC (pyStripL l) ≠ [])
    (hn : numTokensC (pyStripL l) ≠ [])
    (hi : itemOfLine (pyStripL l) = none) :
    stepLine i l s = (s, true) := by
  have h3 : ¬ 3 ≤ keywordCount (pyStripL l) := by omega
  have hne : (pyStripL l).isEmpty = false := by
    cases hh : pyStripL l with
    | nil => exact absurd (by rw [hh]; rfl) hp
    | cons a r => rfl
  have hpe : (textPartsC (pyStripL l)).isEmpty = false := by
    cases hh : textPartsC (pyStripL l) with
    | nil => exact absurd hh hp
    | cons a r => rfl
  have hne2 : (numTokensC (pyStripL l)).isEmpty = false := by
    cases hh : numTokensC (pyStripL l) with
    | nil => exact absurd hh hn
    | cons a r => rfl
  unfold stepLine
  simp [hne, h3, ht, hi, hpe, hne2]

/-- Claim C1: `parse_invoice_data` is a total function whose result is
assembled from one independent total extractor per field (so a field
failing — resolving to null — cannot prevent any other field or the line
items from being extracted), and a line whose item parsing fails inside
the row `try` block is skipped: the items are unchanged and scanning
continues. -/
theorem claim1_total_fieldwise_skip (t : String) :
    parseInvoiceData t =
      { invoice_no := invoiceNoOf t, code_no := codeNoOf t, date := dateOf t,
        customer_name := (nameAddrOf t).1, phone := phoneOf t, email := emailOf t,
        address := (nameAddrOf t).2, reference := referenceOf t,
        subtotal := subtotalOf t, tax := taxOf t, total := totalOf t,
        items := itemsOf t, payment_method := paymentMethodOf t,
        delivery_terms := deliveryTermsOf t, remarks := remarksOf t,
        attended_by := attendedByOf t, kind_attention := kindAttentionOf t } ∧
    (∀ (s : ScanSt) (i : ℤ) (l : Chars),
      keywordCount (pyStripL l) < 3 → terminalLine (pyStripL l) = false →
      textPartsC (pyStripL l) ≠ [] → numTokensC (pyStripL l) ≠ [] →
      itemOfLine (pyStripL l) = none →
      stepLine i l s = (s, true)) := by
  constructor
  · by_cases hb : t = "" ∨ normText t = []
    · have hn : normText t = [] := by
        rcases hb with h | h
        · rw [h]; rfl
        · exact h
      rw [parseInvoiceData, if_pos hb]
      simp only [invoiceNoOf, codeNoOf, dateOf, nameAddrOf, rawCustomerName,
        rawAddress, phoneOf, emailOf, referenceOf, subtotalOf, taxOf, totalOf,
        itemsOf, paymentMethodOf, deliveryTermsOf, remarksOf, attendedByOf,
        kindAttentionOf, hn]
      decide
    · rw [parseInvoiceData, if_neg hb]
  · exact fun s i l h1 h2 h3 h4 h5 => stepLine_item_none i l s h1 h2 h3 h4 h5

/-- Witness for C1: the line `"AB ,."` has text and a numeric token, its
float conversion fails (the token has no digit), and the step skips it. -/
theorem claim1_witness :
    stepLine 5 "AB ,.".data ⟨[], true, 0⟩ = (⟨[], true, 0⟩, true) :=
  (claim1_total_fieldwise_skip "AB").2 ⟨[], true, 0⟩ 5 "AB ,.".data
    (by decide) (by decide) (by decide) (by decide) (by decide)

/-- Counterexample for claim C2: on a whitespace-only (but nonempty)
extracted text the pipeline reports `success = true`, not `false` — only
the strictly empty text takes the `no_text_extracted` failure path. -/
theorem claim2_cex :
    normText " " = [] ∧ " " ≠ "" ∧ (processExtractedText " ").success = true := by
  refine ⟨rfl, by decide, rfl⟩

/-- Claim C2 as amended: the strictly empty text yields the failure result
with an empty header; any blank input makes `parse_invoice_data` return
the fully-null record; and a whitespace-only nonempty text yields the
fully-null header, empty items, and `success = true`. -/
theorem claim2_amended :
    (processExtractedText "" =
      { success := false, errorKind := some "no_text_extracted",
        message := "No text found in PDF. Please enter invoice details manually.",
        header := none, items := [], raw_text := "" }) ∧
    (∀ t : String, normText t = [] → parseInvoiceData t = emptyParseResult) ∧
    (∀ t : String, t ≠ "" → normText t = [] →
      processExtractedText t =
        { success := true, errorKind := none,
          message := "Invoice data extracted successfully from PDF",
          header := some allNullHeader, items := [], raw_text := t }) := by
  refine ⟨rfl, parseInvoiceData_blank, ?_⟩
  intro t ht h
  have hp := parseInvoiceData_blank t h
  unfold processExtractedText
  rw [if_pos ht, hp]
  rfl

/-- Witness for C2 (amended) at the one-space input. -/
theorem claim2_witness :
    processExtractedText " " =
      { success := true, errorKind := none,
        message := "Invoice data extracted successfully from PDF",
        header := some allNullHeader, items := [], raw_text := " " } :=
  claim2_amended.2.2 " " (by decide) rfl

/-- Counterexample for claim C3: the source has no continuation-line
handling.  In the text below the third line starts with whitespace and
its first non-blank character is not a digit, yet it produces a NEW item
(`"extra"`), and nothing is appended to the previous item's description
(`"Widget"` is unchanged). -/
theorem claim3_cex :
    "   extra 500".data.head? = some ' ' ∧
    (("   extra 500".data.dropWhile pyIsSpace).headD '0').isDigit = false ∧
    (parseInvoiceData
        "No Description Qty Rate Value\nWidget 5 100\n   extra 500").items.map
      Item.description = ["Widget", "extra"] ∧
    (parseInvoiceData
        "No Description Qty Rate Value\nWidget 5 100\n   extra 500").items.length ≠ 1 := by
  refine ⟨rfl, rfl, by decide, by decide⟩

/-- Claim C3 as amended: item-row lines are stripped before processing, so
leading whitespace is irrelevant (prepending a space does not change the
step), and a line without numeric tokens contributes nothing: the item
list — including every existing description — is left unchanged.  There
is no append-to-previous-description path. -/
theorem claim3_amended (s : ScanSt) (i : ℤ) (l : Chars) :
    (numTokensC (pyStripL l) = [] → ((stepLine i l s).1).items = s.items) ∧
    stepLine i (' ' :: l) s = stepLine i l s := by
  constructor
  · intro h
    unfold stepLine
    simp [h]
    split_ifs <;> rfl
  · have hst : pyStripL (' ' :: l) = pyStripL l := by
      unfold pyStripL
      rw [List.dropWhile_cons]
      simp [pyIsSpace]
    unfold stepLine
    rw [hst]

/-- Witness for C3 (amended) at a token-free line. -/
theorem claim3_witness :
    ((stepLine 4 "   continued text".data ⟨[sampleItem], true, 0⟩).1).items =
      [sampleItem] :=
  (claim3_amended ⟨[sampleItem], true, 0⟩ 4 "   continued text".data).1 (by decide)

/-- Counterexample for claim C9: the terminal check requires
`idx > header_idx + 1`, so a totals line placed immediately after the
table header is NOT a stopping point — it is parsed as an ordinary row
and emits an item (whose description is `"Total:"`). -/
theorem claim9_cex :
    terminalLine (pyStripL "Total: 500".data) = true ∧
    3 ≤ keywordCount (pyStripL "No Description Qty Rate Value".data) ∧
    (parseInvoiceData "No Description Qty Rate Value\nTotal: 500").items.map
      Item.description = ["Total:"] := by
  refine ⟨by decide, by decide, by decide⟩

/-- Claim C9 as amended: once the item section is started, a line at least
TWO positions after the most recent header line that matches a terminal
keyword (and is not itself a header line) stops scanning: no item is
emitted from it or from any later line. -/
theorem claim9_amended (s : ScanSt) (i : ℤ) (l : Chars)
    (rest : List (ℤ × Chars))
    (hs : s.started = true) (hk : keywordCount (pyStripL l) < 3)
    (hne : pyStripL l ≠ []) (ht : terminalLine (pyStripL l) = true)
    (hidx : s.hdrIdx + 1 < i) :
    runLines ((i, l) :: rest) s = s.items := by
  have h3 : ¬ 3 ≤ keywordCount (pyStripL l) := by omega
  have hie : (pyStripL l).isEmpty = false := by
    cases hh : pyStripL l with
    | nil => exact absurd hh hne
    | cons a r => rfl
  have hstep : stepLine i l s = (s, false) := by
    unfold stepLine
    simp [hie, h3, hs, ht, hidx]
  simp only [runLines, hstep]

/-- Witness for C9 (amended): a `Total:` line two positions after the
header halts the scan and discards the rest. -/
theorem claim9_witness :
    runLines [((2 : ℤ), "Total: 500".data), ((3 : ℤ), "Item X 1 2".data)]
      ⟨[], true, 0⟩ = [] :=
  claim9_amended ⟨[], true, 0⟩ 2 "Total: 500".data [((3 : ℤ), "Item X 1 2".data)]
    rfl (by decide) (by decide) (by decide) (by decide)

/-- Claim C4, the float-free part: the header subtotal of the spec example
is the exact decimal with thousands commas removed (`to_decimal` is
applied to the matched digit string directly, with no float round trip).
The line-item values of the same claim DO pass through `float()`/`str()`
in the source and are not covered by this theorem; see the C4 record. -/
theorem claim4_header_example :
    (parseInvoiceData "Net Value: 1,250,000.00").subtotal = some (Dec.mk 1250000 0) ∧
    toDecimalCh "1,250,000.00".data = some (Dec.mk 1250000 0) ∧
    Dec.toQ (Dec.mk 1250000 0) = (1250000 : ℚ) := by
  refine ⟨by decide, by decide, ?_⟩
  norm_num [Dec.toQ]

theorem tenPow_pos (e : ℕ) : 0 < tenPow e :=
  Int.ofNat_pos.mpr (pow_pos (by norm_num) e)

theorem tenPow_add (a b : ℕ) : tenPow (a + b) = tenPow a * tenPow b := by
  unfold tenPow
  rw [pow_add]
  rfl

/-- Helper: a normalized `Dec` is determined by its value. -/
theorem dec_val_inj_aux (a b : Dec) (hb : IsNormal b) (hle : a.exp ≤ b.exp)
    (h : a.mant * tenPow b.exp = b.mant * tenPow a.exp) : a = b := by
  obtain ⟨k, hk⟩ := Nat.exists_eq_add_of_le hle
  have hten : tenPow a.exp ≠ 0 := (tenPow_pos a.exp).ne'
  have hc : a.mant * tenPow k = b.mant := by
    have h2 : a.mant * tenPow k * tenPow a.exp = b.mant * tenPow a.exp := by
      rw [← h, hk, tenPow_add]
      ring
    exact mul_right_cancel₀ hten h2
  cases k with
  | zero =>
    have hm : a.mant = b.mant := by simpa [tenPow] using hc
    have he : a.exp = b.exp := by omega
    cases a
    cases b
    simp_all
  | succ j =>
    exfalso
    have hbe : b.exp ≠ 0 := by omega
    have hdvd : (10 : ℤ) ∣ b.mant := by
      rw [← hc]
      have hd : (10 : ℤ) ∣ tenPow (j + 1) :=
        ⟨Int.ofNat (10 ^ j), by unfold tenPow; rw [pow_succ, Nat.mul_comm]; rfl⟩
      exact hd.mul_left a.mant
    rcases hb with hb0 | hb10
    · exact hbe hb0
    · exact hb10 hdvd

theorem dec_val_inj (a b : Dec) (ha : IsNormal a) (hb : IsNormal b)
    (h : a.mant * tenPow b.exp = b.mant * tenPow a.exp) : a = b := by
  rcases le_total a.exp b.exp with hle | hle
  · exact dec_val_inj_aux a b hb hle h
  · exact (dec_val_inj_aux b a ha hle h.symm).symm

/-- Claim C6: with exactly two numeric tokens the smaller value becomes
qty (cast to integer when integral), the larger becomes the value, and
exchanging the two tokens produces the same item. -/
theorem claim6_two_tokens (a b : Dec) (ha : IsNormal a) (hb : IsNormal b)
    (it : Item) :
    assignRoles [a, b] it = assignRoles [b, a] it ∧
    (assignRoles [a, b] it).qty = pyCastIfIntegral (if valBle a b then a else b) ∧
    (assignRoles [a, b] it).value = some (if valBle a b then b else a) := by
  rcases lt_trichotomy (a.mant * tenPow b.exp) (b.mant * tenPow a.exp) with h | h | h
  · have h1 : valBlt a b = true := decide_eq_true h
    have h2 : valBlt b a = false := decide_eq_false (not_lt.mpr h.le)
    have h3 : valBle a b = true := decide_eq_true h.le
    refine ⟨?_, ?_, ?_⟩ <;> simp [assignRoles, roundTripDecimal, h1, h2, h3]
  · have heq : a = b := dec_val_inj a b ha hb h
    subst heq
    have h2 : valBlt a a = false := decide_eq_false (lt_irrefl _)
    have h3 : valBle a a = true := decide_eq_true le_rfl
    refine ⟨rfl, ?_, ?_⟩ <;> simp [assignRoles, roundTripDecimal, h2, h3]
  · have h1 : valBlt a b = false := decide_eq_false (not_lt.mpr h.le)
    have h2 : valBlt b a = true := decide_eq_true h
    have h3 : valBle a b = false := decide_eq_false (not_le.mpr h)
    refine ⟨?_, ?_, ?_⟩ <;> simp [assignRoles, roundTripDecimal, h1, h2, h3]

/-- Witness for C6 at the spec example tokens 12 and 1500000. -/
theorem claim6_witness :
    assignRoles [⟨12, 0⟩, ⟨1500000, 0⟩] sampleItem =
        assignRoles [⟨1500000, 0⟩, ⟨12, 0⟩] sampleItem ∧
    (assignRoles [⟨12, 0⟩, ⟨1500000, 0⟩] sampleItem).qty =
      pyCastIfIntegral (if valBle ⟨12, 0⟩ ⟨1500000, 0⟩ then ⟨12, 0⟩ else ⟨1500000, 0⟩) ∧
    (assignRoles [⟨12, 0⟩, ⟨1500000, 0⟩] sampleItem).value =
      some (if valBle ⟨12, 0⟩ ⟨1500000, 0⟩ then ⟨1500000, 0⟩ else ⟨12, 0⟩) :=
  claim6_two_tokens ⟨12, 0⟩ ⟨1500000, 0⟩ (Or.inl rfl) (Or.inl rfl) sampleItem

/-- Helper: the source qty loop is the first list element satisfying the
qualification test (the inner bound failing does not stop the loop). -/
theorem qtyScan_eq_find (maxN : Dec) (l : List Dec) :
    qtyScan maxN l = (l.find? (qtyQualifies maxN)).map pyRoundD := by
  induction l with
  | nil => rfl
  | cons fn rest ih =>
    cases hA : (valBlt ⟨1, 1⟩ fn && valBlt fn ⟨1000, 0⟩ &&
        (isIntegralDec fn || withinTenthOfRound fn)) with
    | false =>
      have hq : qtyQualifies maxN fn = false := by
        unfold qtyQualifies
        rw [hA]
        rfl
      unfold qtyScan
      rw [hA]
      simp [List.find?_cons, hq, ih]
    | true =>
      cases hB : valBle fn ⟨maxN.mant, maxN.exp + 2⟩ with
      | true =>
        have hq : qtyQualifies maxN fn = true := by
          unfold qtyQualifies
          rw [hA, hB]
          rfl
        unfold qtyScan
        rw [hA, hB]
        simp [List.find?_cons, hq]
      | false =>
        have hq : qtyQualifies maxN fn = false := by
          unfold qtyQualifies
          rw [hA, hB]
          rfl
        unfold qtyScan
        rw [hA, hB]
        simp [List.find?_cons, hq, ih]

/-- Claim C5 as amended: with three or more tokens the maximum token
becomes the value, and qty is the rounding of the first token that is in
the open interval (0.1, 1000), integral or within 0.1 of its rounding,
and AT MOST max/100 (the source bound is non-strict); if no token
qualifies qty keeps its previous value (the default 1). -/
theorem claim5_amended (f0 f1 f2 : Dec) (rest : List Dec) (it : Item) :
    (assignRoles (f0 :: f1 :: f2 :: rest) it).value =
      some (listMax (f0 :: f1 :: f2 :: rest)) ∧
    (assignRoles (f0 :: f1 :: f2 :: rest) it).qty =
      (match (f0 :: f1 :: f2 :: rest).find?
          (qtyQualifies (listMax (f0 :: f1 :: f2 :: rest))) with
       | some fn => PyNum.pint (pyRoundD fn)
       | none => it.qty) := by
  constructor
  · cases hq : qtyScan (listMax (f0 :: f1 :: f2 :: rest)) (f0 :: f1 :: f2 :: rest) with
    | none => simp [assignRoles, roundTripDecimal, hq]
    | some z => simp [assignRoles, roundTripDecimal, hq]
  · rw [show (assignRoles (f0 :: f1 :: f2 :: rest) it).qty =
        (match qtyScan (listMax (f0 :: f1 :: f2 :: rest)) (f0 :: f1 :: f2 :: rest) with
         | some z => PyNum.pint z
         | none => it.qty) from ?_]
    · rw [qtyScan_eq_find]
      cases hf : (f0 :: f1 :: f2 :: rest).find?
          (qtyQualifies (listMax (f0 :: f1 :: f2 :: rest))) with
      | none => rfl
      | some fn => rfl
    · cases hq : qtyScan (listMax (f0 :: f1 :: f2 :: rest)) (f0 :: f1 :: f2 :: rest) with
      | none => simp [assignRoles, hq]
      | some z => simp [assignRoles, hq]

/-- Counterexample for claim C5: in the row `Widget 10 500 1000` the token
10 equals max/100 exactly; the code's NON-STRICT bound accepts it
(qty becomes 10), while the claim's strict bound rejects every token and
predicts the default qty 1. -/
theorem claim5_cex :
    pyFloats (numTokensC (pyStripL "Widget 10 500 1000".data)) =
      some [⟨10, 0⟩, ⟨500, 0⟩, ⟨1000, 0⟩] ∧
    (itemOfLine "Widget 10 500 1000".data).map Item.qty = some (PyNum.pint 10) ∧
    specC5qty [⟨10, 0⟩, ⟨500, 0⟩, ⟨1000, 0⟩] = none ∧
    PyNum.pint 10 ≠ PyNum.pint 1 := by
  refine ⟨by decide, by decide, by decide, by decide⟩

end InvoiceSpec
